import Mathlib

/-!
Verification development for the bonjourarcade catalog-build pipeline.

The embedding models the two gamelist-generation drivers:
* `scripts/generate_gamelist_sequential.sh` (the sequential driver), and
* the parallel-batched driver (same repository, unnamed source file),
together with the external-game scan both drivers share, the prediction
overlay protocol of `check_predictions_status.py` (modelled as an oracle
returning the script's stdout string), and the front-end visibility test of
`public/assets/js/main.js`.

Filesystem state (metadata files, cover files, save states, external game
directories) and the external tools (`date` parsing, the prediction script)
are captured in an `Env` record of oracle functions, so every pipeline
function is a pure function of an `Env` and a manifest.  String processing
is implemented on `String.data` so that all definitions evaluate inside the
kernel on concrete inputs.
-/

/-- Splits a character list at every occurrence of `sep`, keeping empty
chunks (the semantics of `cut` / `awk -F` field splitting). -/
def chunksBy (sep : Char) : List Char → List (List Char)
  | [] => [[]]
  | c :: cs =>
    let r := chunksBy sep cs
    if c = sep then [] :: r
    else
      match r with
      | [] => [[c]]
      | h :: t => (c :: h) :: t

/-- Splits a string on a separator character, keeping empty fields. -/
def splitOnChar (sep : Char) (s : String) : List String :=
  (chunksBy sep s.data).map String.mk

/-- Does `pat` occur as a contiguous sublist of `l`?  Implements the
substring test used by `grep -v "/bios/"` and `[[ $x == *"|"* ]]`. -/
def hasSub (pat : List Char) : List Char → Bool
  | [] => pat.isPrefixOf []
  | c :: cs => pat.isPrefixOf (c :: cs) || hasSub pat cs

/-- Substring containment on strings. -/
def strContains (s pat : String) : Bool := hasSub pat.data s.data

/-- Lower-casing, character by character (`grep -i` matching). -/
def lowerStr (s : String) : String := String.mk (s.data.map Char.toLower)

/-- Prefix test on strings (data-level, kernel-reducible). -/
def strStarts (s pat : String) : Bool := pat.data.isPrefixOf s.data

/-- Suffix test on strings (data-level, kernel-reducible). -/
def strEnds (s pat : String) : Bool := pat.data.reverse.isPrefixOf s.data.reverse

/-- Byte-wise (code-point-wise) string order, modelling `sort` under the C
locale. -/
def charListLe : List Char → List Char → Bool
  | [], _ => true
  | _ :: _, [] => false
  | a :: as, b :: bs => if a = b then charListLe as bs else decide (a.toNat < b.toNat)

/-- String order used to model the shell `sort` of ROM entries and of the
per-game temp files. -/
def strLe (a b : String) : Bool := charListLe a.data b.data

/-- Propositional form of `strLe`, for `List.insertionSort`. -/
def strLeProp (a b : String) : Prop := strLe a b = true

instance : DecidableRel strLeProp := fun a b => by
  unfold strLeProp; infer_instance

/-- Model of the shell `sort` over the collected ROM entry lines. -/
def sortLines (l : List String) : List String := List.insertionSort strLeProp l

/-- Strips the final filename extension: `sed 's/\.[^.]*$//'`.  A name with
no dot is unchanged; only the part after the last dot is removed. -/
def stripExt (s : String) : String :=
  let parts := splitOnChar '.' s
  if parts.length == 1 then s else String.intercalate "." parts.dropLast

/-- First path segment of a manifest entry: `cut -d'/' -f1` when the entry
contains a slash, else `basename "$(dirname ...)"`, which is `"."` for a
bare filename. -/
def romSubdir (e : String) : String :=
  if strContains e "/" then ((splitOnChar '/' e).headD "") else "."

/-- Last path segment: `awk -F'/' '{print $NF}'` when the entry contains a
slash, else the entry itself. -/
def romFilename (e : String) : String :=
  if strContains e "/" then ((splitOnChar '/' e).getLastD "") else e

/-- Game id of a manifest entry: filename with its final extension
stripped. -/
def gidOf (e : String) : String := stripExt (romFilename e)

/-- Does one path segment start one of the reserved basenames followed by a
dot (part of `grep -viE '(^|/)(README|upload-files)(\.|$)'`)? -/
def segReservedDot (seg : String) : Bool :=
  strStarts (lowerStr seg) "readme." || strStarts (lowerStr seg) "upload-files."

/-- Whole-path form of the reserved-basename filter
`grep -viE '(^|/)(README|upload-files)(\.|$)'` applied by the parallel
driver when collecting entries: some segment starts `README.` or
`upload-files.`, or the last segment is exactly one of the names. -/
def pathReserved (e : String) : Bool :=
  let segs := splitOnChar '/' e
  segs.any segReservedDot ||
    (let last := lowerStr (segs.getLastD "")
     last == "readme" || last == "upload-files")

/-- Filename form of the reserved-basename filter, the per-file check
`grep -qiE '^(README|upload-files)(\.|$)'` of the parallel driver. -/
def fileReserved (fn : String) : Bool :=
  let l := lowerStr fn
  l == "readme" || l == "upload-files" ||
    strStarts l "readme." || strStarts l "upload-files."

/-- Denylisted non-ROM helper extension names (the alternation inside the
parallel driver's extension grep). -/
def denyExts : List String :=
  ["md", "markdown", "txt", "sh", "bash", "zsh", "ps1", "bat"]

/-- The parallel driver's extension filter, exactly as its single-quoted
pattern reaches `grep -viE`: in `'\\.(md|...)$'` the doubled backslash is
an escaped literal backslash and the following `.` matches any one
character, so a line matches only when it ends in a literal backslash,
one arbitrary character, and a denylisted extension name.  On ordinary
ROM paths (no backslash) the filter never fires — `NES/notes.txt` is
kept — which `grep -E` confirms; only paths like `foo\xmd` match. -/
def strDenyExt (s : String) : Bool :=
  denyExts.any (fun ext =>
    let rev := (lowerStr s).data.reverse
    ext.data.reverse.isPrefixOf rev &&
      (match rev.drop ext.data.length with
       | _ :: c :: _ => c = '\\'
       | _ => false))

/-- Core mapping, `get_core_from_dir` (identical in both drivers). -/
def get_core_from_dir (d : String) : String :=
  match d with
  | "arcade" | "fbneo" => "arcade"
  | "mame" | "mame2003" => "mame2003_plus"
  | "ATARI2600" => "atari2600"
  | "GAMEBOY" => "gb"
  | "GBA" => "gba"
  | "GENESIS" | "MEGADRIVE" => "segaMD"
  | "GG" => "segaGG"
  | "JAGUAR" => "jaguar"
  | "N64" => "n64"
  | "NES" => "nes"
  | "PCENGINE" => "pce"
  | "PSX" => "psx"
  | "S32X" => "sega32x"
  | "SMS" => "segaMS"
  | "SNES" => "snes"
  | "VB" => "vb"
  | "WS" => "ws"
  | _ => ""

/-- Raw fields of a parsed `metadata.yaml`, after `yq` converted it to
JSON.  Each field holds the string `jq -r` would print for a present,
truthy value; `none` stands for an absent (or JSON-null/false, which `//`
treats the same way) field.  `enable_score` keeps its boolean shape because
the scripts pass it through `--argjson`.  `controls` holds the compact JSON
text `jq -c '.controls'` would emit. -/
structure GameMeta where
  title : Option String := none
  developer : Option String := none
  year : Option String := none
  genre : Option String := none
  recommended : Option String := none
  added : Option String := none
  hide : Option String := none
  enable_score : Option Bool := none
  to_start : Option String := none
  problem : Option String := none
  controls : Option String := none
  new : Option String := none
  announcement_message : Option String := none
  game_type : Option String := none
  external_url : Option String := none
  launch_button_text : Option String := none
  launch_button_url : Option String := none
  deriving DecidableEq

/-- State of `public/games/<id>/metadata.yaml`: no file, a file `yq` fails
to parse (the `INVALID_YAML` branch), or a parsed document. -/
inductive MetaFile where
  | absent
  | invalid
  | parsed (doc : GameMeta)
  deriving DecidableEq

/-- The filesystem and external-tool state a build run reads:
metadata/cover/save lookups by game id, the prediction oracle (stdout of
`scripts/check_predictions_status.py <key>`, with lookup failure already
normalised to `NOT_IN_PREDICTIONS` by the `|| echo` fallback), the `date`
parser (epoch seconds, `none` when both `date` invocations fail), the
current time `date +%s`, the `LOCAL_TESTING` path mode, and the sorted list
of `public/games/external-*` directory basenames. -/
structure Env where
  metaOf : String → MetaFile
  hasCover : String → Bool
  hasSave : String → Bool
  predict : String → String
  parseDate : String → Option Int
  nowEpoch : Int
  useLocalPaths : Bool
  externalDirs : List String

/-- One record of the output catalog, the JSON object each driver builds
with `jq -n`.  ROM-backed objects do not carry the four external-only JSON
keys; they are modelled as `""` here (with `game_type` `""`, versus the
mandatory `"external"` of external entries). -/
structure CatalogEntry where
  id : String
  title : String
  problem : String
  developer : String
  year : String
  genre : String
  recommended : String
  added : String
  hide : String
  coverArt : String
  pageUrl : String
  core : String
  romPath : String
  saveState : String
  enable_score : Bool
  controls : String
  to_start : String
  new_flag : String
  announcement_message : String
  external_url : String
  launch_button_text : String
  launch_button_url : String
  game_type : String
  deriving DecidableEq, Repr

/-- Field extraction `jq -r '.x // "d"'`: the value when present (and
truthy, see `GameMeta`), else the default. -/
def jqStr (o : Option String) (d : String) : String := o.getD d

/-- Boolean extraction `jq '.x // d'`: `jq`'s `//` keeps only a `true`
value; `false` (like `null`) falls through to the default. -/
def jqBool (o : Option Bool) (d : Bool) : Bool :=
  match o with
  | some true => true
  | _ => d

/-- Did the prediction script ask to show the game
(`[[ "$prediction_result" == SHOW_GAME* ]]`)? -/
def predIsShow (r : String) : Bool := strStarts r "SHOW_GAME"

/-- Optional override date carried by a `SHOW_GAME|<date>` result:
`cut -d'|' -f2`, used only when the result contains `|` and the field is
non-empty. -/
def predDate (r : String) : Option String :=
  if strContains r "|" then
    let d := ((splitOnChar '|' r).drop 1).headD ""
    if d ≠ "" then some d else none
  else none

/-- Applies one prediction lookup result to the pending `hide` and `added`
values: a `SHOW_GAME*` result forces `hide="no"` and, when a non-empty
date rides along, replaces `added`. -/
def applyPred (r : String) (hide added : String) : String × String :=
  if predIsShow r then
    ("no", match predDate r with
           | some d => d
           | none => added)
  else (hide, added)

/-- Whether the top-level assignment
`added_epoch=$(date -j -f ... || date -d ...)` fails: `added` is present,
not the sentinel, and neither `date` invocation parses it.  Both scripts
run under `set -e`, so in the sequential ROM loop and in both drivers'
external scans this failed assignment aborts the whole build with a
non-zero exit before the `[ -n "$added_epoch" ]` guard can run (verified
against bash); only the parallel ROM loop survives, because its per-file
subshell sits in an `if ! ( ... )` condition where errexit is
suppressed. -/
def dateAssignAborts (parse : String → Option Int) (added : String) : Bool :=
  added ≠ "" && added ≠ "DATE_PLACEHOLDER" && (parse added).isNone

/-- The by-date recency check: `added` non-empty and not the
`DATE_PLACEHOLDER` sentinel, `date` parses it, and the whole-day difference
`(now_epoch - added_epoch) / 86400` (bash truncating division) is `< 7`.
The unparsable-date branch (`none`, yielding "not new") models the check
as it behaves in the parallel ROM loop's `if ! ( ... )` subshell, where
`set -e` is suppressed and `added_epoch` is simply left empty; in the
sequential ROM loop and in both external scans the same situation instead
aborts the build — see `dateAssignAborts` — so the sequential and
external pipeline functions below describe runs in which no consulted
`added` date is unparsable. -/
def isNewByDate (parse : String → Option Int) (now : Int) (added : String) : Bool :=
  if added ≠ "" && added ≠ "DATE_PLACEHOLDER" then
    match parse added with
    | some ep => decide (Int.tdiv (now - ep) 86400 < 7)
    | none => false
  else false

/-- Final `new_flag` value: `"true"` when the explicit override is the
literal `"true"` or the date check fired, else the empty string. -/
def finalNewFlag (newOverride : String) (byDate : Bool) : String :=
  if newOverride == "true" || byDate then "true" else ""

/-- The per-entry shell variables after the metadata/prediction phase. -/
structure RomFields where
  title : String
  developer : String
  year : String
  genre : String
  recommended : String
  added : String
  hide : String
  enable_score : Bool
  to_start : String
  problem : String
  controls : String
  new_override : String
  ann : String
  deriving DecidableEq

/-- Absolute site path of the shared placeholder cover. -/
def defaultCoverPath : String := "/assets/images/placeholder_thumb.png"

/-- Shared per-ROM-entry processing of both drivers (everything between
the path normalisation and the `jq -n` object).  `byTitle` selects the
prediction lookup key: the sequential driver queries
`check_predictions_status.py` with `$title`, the parallel driver with
`$game_id`.  `ann0` is the incoming value of the `announcement_message`
shell variable, which the sequential driver never re-initialises between
loop iterations (the parallel driver processes each file in a fresh
subshell, so it passes `""`).  Returns the built entry and the outgoing value of the
`announcement_message` variable. -/
def processRomCommon (env : Env) (byTitle : Bool) (ann0 : String) (e : String) :
    CatalogEntry × String :=
  let sub := romSubdir e
  let fn := romFilename e
  let gid := stripExt fn
  let rom_path :=
    if env.useLocalPaths then "/roms/" ++ sub ++ "/" ++ fn
    else "https://storage.googleapis.com/bonjourarcade/roms/" ++ sub ++ "/" ++ fn
  let core := get_core_from_dir sub
  let page_url := "/play?game=" ++ gid
  let mf := env.metaOf gid
  let f0 : RomFields :=
    match mf with
    | MetaFile.parsed doc =>
      let title := jqStr doc.title ""
      let hide0 := jqStr doc.hide ""
      let added0 := jqStr doc.added ""
      let key := if byTitle then title else gid
      let ha :=
        if key ≠ "" then applyPred (env.predict key) hide0 added0 else (hide0, added0)
      { title := title
        developer := jqStr doc.developer ""
        year := jqStr doc.year ""
        genre := jqStr doc.genre ""
        recommended := jqStr doc.recommended ""
        added := ha.2
        hide := ha.1
        enable_score := jqBool doc.enable_score true
        to_start := jqStr doc.to_start ""
        problem := jqStr doc.problem ""
        controls := (doc.controls).getD "null"
        new_override := (doc.new).getD ""
        ann := jqStr doc.announcement_message "" }
    | _ =>
      { title := gid, developer := "", year := "", genre := "", recommended := ""
        added := "", hide := "yes", enable_score := true, to_start := ""
        problem := "", controls := "null", new_override := "", ann := ann0 }
  let metaPresent : Bool :=
    match mf with
    | MetaFile.absent => false
    | _ => true
  let key2 := if byTitle then f0.title else gid
  let f1 : RomFields :=
    if metaPresent && f0.title ≠ "" && f0.title ≠ gid then f0
    else if key2 ≠ "" then
      let ha := applyPred (env.predict key2) f0.hide f0.added
      { f0 with hide := ha.1, added := ha.2 }
    else f0
  let byDate := isNewByDate env.parseDate env.nowEpoch f1.added
  let nf := finalNewFlag f1.new_override byDate
  let cover := if env.hasCover gid then "/games/" ++ gid ++ "/cover.png" else defaultCoverPath
  let save := if env.hasSave gid then "/games/" ++ gid ++ "/save.state" else ""
  let entry : CatalogEntry :=
    { id := gid
      title := if f1.title == "" then gid else f1.title
      problem := f1.problem
      developer := f1.developer
      year := f1.year
      genre := f1.genre
      recommended := f1.recommended
      added := f1.added
      hide := f1.hide
      coverArt := cover
      pageUrl := page_url
      core := if core == "" then "null" else core
      romPath := rom_path
      saveState := save
      enable_score := f1.enable_score
      controls := f1.controls
      to_start := f1.to_start
      new_flag := nf
      announcement_message := f1.ann
      external_url := ""
      launch_button_text := ""
      launch_button_url := ""
      game_type := "" }
  (entry, f1.ann)

/-- Decomposed view of the metadata phase of `processRomCommon` (the
shell variables after the defaults and the first prediction block). -/
def romFields0 (env : Env) (byTitle : Bool) (ann0 : String) (e : String) : RomFields :=
  let gid := stripExt (romFilename e)
  match env.metaOf gid with
  | MetaFile.parsed doc =>
    let title := jqStr doc.title ""
    let hide0 := jqStr doc.hide ""
    let added0 := jqStr doc.added ""
    let key := if byTitle then title else gid
    let ha :=
      if key ≠ "" then applyPred (env.predict key) hide0 added0 else (hide0, added0)
    { title := title
      developer := jqStr doc.developer ""
      year := jqStr doc.year ""
      genre := jqStr doc.genre ""
      recommended := jqStr doc.recommended ""
      added := ha.2
      hide := ha.1
      enable_score := jqBool doc.enable_score true
      to_start := jqStr doc.to_start ""
      problem := jqStr doc.problem ""
      controls := (doc.controls).getD "null"
      new_override := (doc.new).getD ""
      ann := jqStr doc.announcement_message "" }
  | _ =>
    { title := gid, developer := "", year := "", genre := "", recommended := ""
      added := "", hide := "yes", enable_score := true, to_start := ""
      problem := "", controls := "null", new_override := "", ann := ann0 }

/-- Decomposed view of the shell variables after the second prediction
block (the "games without metadata" fallback lookup). -/
def romFields1 (env : Env) (byTitle : Bool) (ann0 : String) (e : String) : RomFields :=
  let gid := stripExt (romFilename e)
  let f0 := romFields0 env byTitle ann0 e
  let metaPresent : Bool :=
    match env.metaOf gid with
    | MetaFile.absent => false
    | _ => true
  let key2 := if byTitle then f0.title else gid
  if metaPresent && f0.title ≠ "" && f0.title ≠ gid then f0
  else if key2 ≠ "" then
    let ha := applyPred (env.predict key2) f0.hide f0.added
    { f0 with hide := ha.1, added := ha.2 }
  else f0

/-- Decomposed view of the `jq -n` object construction from the final
shell variables. -/
def mkRomEntry (env : Env) (e : String) (f1 : RomFields) : CatalogEntry :=
  let sub := romSubdir e
  let fn := romFilename e
  let gid := stripExt fn
  let rom_path :=
    if env.useLocalPaths then "/roms/" ++ sub ++ "/" ++ fn
    else "https://storage.googleapis.com/bonjourarcade/roms/" ++ sub ++ "/" ++ fn
  let core := get_core_from_dir sub
  let page_url := "/play?game=" ++ gid
  let byDate := isNewByDate env.parseDate env.nowEpoch f1.added
  let nf := finalNewFlag f1.new_override byDate
  let cover := if env.hasCover gid then "/games/" ++ gid ++ "/cover.png" else defaultCoverPath
  let save := if env.hasSave gid then "/games/" ++ gid ++ "/save.state" else ""
  { id := gid
    title := if f1.title == "" then gid else f1.title
    problem := f1.problem
    developer := f1.developer
    year := f1.year
    genre := f1.genre
    recommended := f1.recommended
    added := f1.added
    hide := f1.hide
    coverArt := cover
    pageUrl := page_url
    core := if core == "" then "null" else core
    romPath := rom_path
    saveState := save
    enable_score := f1.enable_score
    controls := f1.controls
    to_start := f1.to_start
    new_flag := nf
    announcement_message := f1.ann
    external_url := ""
    launch_button_text := ""
    launch_button_url := ""
    game_type := "" }

/-- One sequential-loop iteration on one manifest line: skip empty lines
(`[ -z ] && continue`) and `bios` first segments, otherwise build the
entry.  Also returns the outgoing `announcement_message` variable. -/
def seqEntryResult (env : Env) (ann : String) (e : String) :
    Option CatalogEntry × String :=
  if e == "" then (none, ann)
  else if romSubdir e == "bios" then (none, ann)
  else
    let r := processRomCommon env true ann e
    (some r.1, r.2)

/-- Fold step of the sequential ROM loop: state is the
`announcement_message` variable plus the entries emitted so far. -/
def seqStep (env : Env) (st : String × List CatalogEntry) (e : String) :
    String × List CatalogEntry :=
  match seqEntryResult env st.1 e with
  | (some g, a) => (a, st.2 ++ [g])
  | (none, a) => (a, st.2)

/-- All ROM-backed entries the sequential driver emits for a collected
line list, in order. -/
def seqRomEntries (env : Env) (lines : List String) : List CatalogEntry :=
  (lines.foldl (seqStep env) ("", [])).2

/-- Line filter the sequential driver applies when reading a manifest:
only `grep -v "/bios/"`. -/
def seqKeep (e : String) : Bool := !(strContains e "/bios/")

/-- Collected, sorted ROM entry lines of the sequential driver
(manifest mode): `grep -v "/bios/" | sort`. -/
def seqCollect (manifest : List String) : List String :=
  sortLines (manifest.filter seqKeep)

/-- Processing of one `public/games/external-*` directory (identical code
in both drivers): requires a parsed metadata file with
`game_type == "external"`, then skips hidden entries and entries missing
`title` or `external_url`.  The recency computation describes a completed
run: an unparsable `added` date in an eligible external document would
abort either driver under `set -e` (see `dateAssignAborts`). -/
def processExternal (env : Env) (gid : String) : Option CatalogEntry :=
  match env.metaOf gid with
  | MetaFile.parsed doc =>
    let game_type := jqStr doc.game_type ""
    if game_type ≠ "external" then none
    else
      let title := jqStr doc.title ""
      let hide := jqStr doc.hide ""
      let external_url := jqStr doc.external_url ""
      let launch_button_url := jqStr doc.launch_button_url ""
      if hide == "yes" || title == "" || external_url == "" then none
      else
        let added := jqStr doc.added ""
        let byDate := isNewByDate env.parseDate env.nowEpoch added
        let cover :=
          if env.hasCover gid then "/games/" ++ gid ++ "/cover.png" else defaultCoverPath
        let page_url :=
          if launch_button_url ≠ "" && launch_button_url ≠ external_url then
            launch_button_url
          else external_url
        some
          { id := gid
            title := if title == "" then gid else title
            problem := jqStr doc.problem ""
            developer := jqStr doc.developer ""
            year := jqStr doc.year ""
            genre := jqStr doc.genre ""
            recommended := jqStr doc.recommended ""
            added := added
            hide := hide
            coverArt := cover
            pageUrl := page_url
            core := "external"
            romPath := ""
            saveState := ""
            enable_score := jqBool doc.enable_score false
            controls := (doc.controls).getD "null"
            to_start := jqStr doc.to_start ""
            new_flag := finalNewFlag ((doc.new).getD "") byDate
            announcement_message := jqStr doc.announcement_message ""
            external_url := external_url
            launch_button_text := jqStr doc.launch_button_text "Play Game"
            launch_button_url := launch_button_url
            game_type := game_type }
  | _ => none

/-- External entries appended by the `external-*` scan, in directory-glob
order. -/
def externalEntries (env : Env) : List CatalogEntry :=
  env.externalDirs.filterMap (processExternal env)

/-- The games array the sequential driver writes to `gamelist.json`
(manifest mode): ROM entries in sorted-line order, then external entries.
The sequential script runs the external scan a second time after the
output file is written; those late appends land after the closing `]` of
an already-consumed temp file and never reach `gamelist.json`, so they are
not modelled.  Like `processExternal`, this describes a completed run: a
present, non-sentinel, unparsable `added` date would instead abort the
script under `set -e` (see `dateAssignAborts`). -/
def seqCatalog (env : Env) (manifest : List String) : List CatalogEntry :=
  seqRomEntries env (seqCollect manifest) ++ externalEntries env

/-- Line filter the parallel driver applies when collecting from a local
manifest or a scan: `bios`, reserved basenames and the (inert on
backslash-free paths) denylisted-extension pattern. -/
def parKeep (e : String) : Bool :=
  !(strContains e "/bios/") && !(pathReserved e) && !(strDenyExt e)

/-- Collected, sorted ROM entry lines of the parallel driver. -/
def parCollect (manifest : List String) : List String :=
  sortLines (manifest.filter parKeep)

/-- Per-file processing of the parallel driver: empty-line skip, the
per-file reserved-basename check, the per-file extension check (same
doubled-backslash pattern as at collection, hence inert on ordinary
names), the `bios` skip, then the shared entry build (prediction lookups
keyed by game id, fresh `announcement_message` because each file runs in
its own subshell). -/
def parProcessRom (env : Env) (e : String) : Option CatalogEntry :=
  if e == "" then none
  else
    let fn := romFilename e
    if fileReserved fn then none
    else if strDenyExt fn then none
    else if romSubdir e == "bios" then none
    else some (processRomCommon env false "" e).1

/-- Writing `$temp_dir/game_${game_id}.json`: a later write to the same
game id replaces the earlier file. -/
def upsert (m : List (String × CatalogEntry)) (k : String) (v : CatalogEntry) :
    List (String × CatalogEntry) :=
  if m.any (fun p => p.1 == k) then
    m.map (fun p => if p.1 == k then (k, v) else p)
  else m ++ [(k, v)]

/-- Contents of the per-game temp files after all batches ran.  Batches
partition the line list round-robin and run concurrently; since every
write is keyed only by game id, interleaving affects nothing but which
write wins when two lines share a game id, so the writes are modelled in
line-list order. -/
def parTemp (env : Env) (lines : List String) : List (String × CatalogEntry) :=
  lines.foldl
    (fun m e =>
      match parProcessRom env e with
      | some g => upsert m (gidOf e) g
      | none => m)
    []

/-- Order of the merge pass `find "$TEMP_DIR" -name "game_*.json" | sort`:
temp files sorted by their file name `game_<id>.json`. -/
def gameFileLe (a b : String × CatalogEntry) : Prop :=
  strLe ("game_" ++ a.1 ++ ".json") ("game_" ++ b.1 ++ ".json") = true

instance : DecidableRel gameFileLe := fun a b => by
  unfold gameFileLe; infer_instance

/-- ROM-backed entries of the parallel driver after the merge pass. -/
def parRomEntries (env : Env) (lines : List String) : List CatalogEntry :=
  (List.insertionSort gameFileLe (parTemp env lines)).map Prod.snd

/-- The games array the parallel driver writes to `gamelist.json`
(manifest mode). -/
def parCatalog (env : Env) (manifest : List String) : List CatalogEntry :=
  parRomEntries env (parCollect manifest) ++ externalEntries env

/-- Quoting of a rendered JSON string field (the `jq` escaping of exotic
characters inside values is not modelled; no claim depends on it). -/
def qt (s : String) : String := "\x22" ++ s ++ "\x22"

/-- One line of `$TEMP_DIR/processed_games.json`, the object `jq -n`
prints for an entry. -/
def renderEntry (g : CatalogEntry) : String :=
  "\x7b" ++ qt "id" ++ ": " ++ qt g.id ++ ", " ++ qt "title" ++ ": " ++ qt g.title ++
    ", " ++ qt "hide" ++ ": " ++ qt g.hide ++ ", " ++ qt "core" ++ ": " ++ qt g.core ++
    ", " ++ qt "added" ++ ": " ++ qt g.added ++ ", " ++ qt "new_flag" ++ ": " ++
    qt g.new_flag ++ "\x7d"

/-- Content of `$TEMP_DIR/processed_games.json`: the opening `[` line, the
comma-separated entry lines, and the closing `]` line. -/
def processedGamesContent (entries : List CatalogEntry) : String :=
  "[\n" ++ String.intercalate ",\n" (entries.map renderEntry) ++
    (if entries.isEmpty then "" else "\n") ++ "]\n"

/-- Exit code of the sequential driver's assembly phase.  The two `jq -e`
validations always succeed on content of this bracketed shape built from
single-object lines, so the only modelled gate is
`[ ! -s "$TEMP_DIR/processed_games.json" ]`, the driver's "no games were
processed" abort: it fires exactly when the temp file is an empty FILE. -/
def seqExit (env : Env) (manifest : List String) : Nat :=
  if processedGamesContent (seqCatalog env manifest) == "" then 1 else 0

/-- Visibility test of the front-end
(`main.js`: `!(game.hide === true || game.hide === 'yes')`); catalog
`hide` fields are strings, so the `=== true` disjunct never fires. -/
def jsVisible (hide : String) : Bool := !(hide == "yes")

/-- Replaces the metadata lookup result for one game id. -/
def Env.withMeta (env : Env) (id : String) (mf : MetaFile) : Env :=
  { env with metaOf := fun s => if s = id then mf else env.metaOf s }

/-- Explicit `new` override the drivers read for a ROM entry
(`jq -r '.new // empty'`, with `""` in the invalid/absent branches). -/
def newOverrideOf (env : Env) (gid : String) : String :=
  match env.metaOf gid with
  | MetaFile.parsed doc => (doc.new).getD ""
  | _ => ""

/-- What one manifest line contributes to the sequential driver's games
array: nothing when the collection `grep` drops the line, else the result
of its loop iteration (given the incoming `announcement_message`). -/
def seqLineContribution (env : Env) (ann : String) (e : String) : Option CatalogEntry :=
  if seqKeep e then (seqEntryResult env ann e).1 else none

/-- What one manifest line contributes to the parallel driver's per-game
temp files: nothing when the collection `grep`s drop the line, else its
per-file processing result. -/
def parLineContribution (env : Env) (e : String) : Option CatalogEntry :=
  if parKeep e then parProcessRom env e else none

/-- An environment with no metadata, no covers, no saves, no predictions,
an unparsable date format, and no external games. -/
def trivEnv : Env :=
  { metaOf := fun _ => MetaFile.absent
    hasCover := fun _ => false
    hasSave := fun _ => false
    predict := fun _ => "NOT_IN_PREDICTIONS"
    parseDate := fun _ => none
    nowEpoch := 1700000000
    useLocalPaths := true
    externalDirs := [] }

/-- Environment for the divergence of the prediction lookup keys: the
prediction data flags the game id `mario`, whose metadata carries a
different title and an explicit `hide: "yes"`. -/
def c5Env : Env :=
  { trivEnv with
    metaOf := fun s =>
      if s = "mario" then
        MetaFile.parsed { title := some "Super Mario", hide := some "yes" }
      else MetaFile.absent
    predict := fun s =>
      if s = "mario" then "SHOW_GAME|2025-01-06" else "NOT_IN_PREDICTIONS" }

/-- Environment for the `announcement_message` carry-over: `alpha` has a
parsed metadata file with a non-empty announcement, `beta` has an
unparsable one. -/
def c6Env : Env :=
  { trivEnv with
    metaOf := fun s =>
      if s = "alpha" then
        MetaFile.parsed { announcement_message := some "bonjour" }
      else if s = "beta" then MetaFile.invalid
      else MetaFile.absent }

/-- Environment with an empty-but-valid metadata document for `zelda`. -/
def c10Env : Env :=
  { trivEnv with
    metaOf := fun s =>
      if s = "zelda" then MetaFile.parsed {} else MetaFile.absent }

/-- Environment where `fresh` was added three days before "now" and the
date format parses. -/
def c4Env : Env :=
  { trivEnv with
    metaOf := fun s =>
      if s = "fresh" then MetaFile.parsed { added := some "2025-01-01" }
      else MetaFile.absent
    parseDate := fun s => if s = "2025-01-01" then some 1735689600 else none
    nowEpoch := 1735689600 + 3 * 86400 }

example : gidOf "NES/Mario.nes" = "Mario" := by decide
example : romSubdir "NES/Mario.nes" = "NES" := by decide
example : stripExt ".nes" = "" := by decide
example : pathReserved "NES/README.md" = true := by decide
example : pathReserved "NES/README/x.nes" = false := by decide
example : strDenyExt "roms/notes.TXT" = false := by decide
example : strDenyExt "foo\\xmd" = true := by decide
example : seqKeep "NES/bios/x.nes" = false := by decide
example : seqKeep "bios/x.nes" = true := by decide
example : predDate "SHOW_GAME|2025-01-06" = some "2025-01-06" := by decide
example : predDate "SHOW_GAME" = none := by decide

/-- A lookup result that is not `SHOW_GAME*` changes nothing. -/
theorem applyPred_not_show {r : String} (h : predIsShow r = false)
    (hide added : String) : applyPred r hide added = (hide, added) := by
  unfold applyPred
  simp [h]

/-- A `SHOW_GAME*` result forces `hide = "no"` and applies the optional
date override. -/
theorem applyPred_show {r : String} (h : predIsShow r = true) (hide added : String) :
    applyPred r hide added =
      ("no", match predDate r with
             | some d => d
             | none => added) := by
  unfold applyPred
  simp [h]

/-- The `core` field of a built ROM entry is the mapped core, with the
string `"null"` substituted by `${core:-null}` when the mapping is
empty. -/
theorem processRomCommon_core (env : Env) (b : Bool) (a e : String) :
    (processRomCommon env b a e).1.core =
      (if get_core_from_dir (romSubdir e) == "" then "null"
       else get_core_from_dir (romSubdir e)) := rfl

/-- The processed-games temp file always holds at least the two bracket
lines, so it is never an empty file. -/
theorem processedGamesContent_ne (entries : List CatalogEntry) :
    processedGamesContent entries ≠ "" := by
  intro h
  have hd : (processedGamesContent entries).data = [] := by rw [h]
  unfold processedGamesContent at hd
  rw [String.data_append, String.data_append, String.data_append] at hd
  rcases List.append_eq_nil.mp hd with ⟨h1, _⟩
  rcases List.append_eq_nil.mp h1 with ⟨h2, _⟩
  rcases List.append_eq_nil.mp h2 with ⟨h3, _⟩
  exact absurd h3 (by decide)

/-- The sequential driver's assembly gates never abort: the
`[ ! -s processed_games.json ]` check cannot fire. -/
theorem seqExit_zero (env : Env) (manifest : List String) :
    seqExit env manifest = 0 := by
  have hne : (processedGamesContent (seqCatalog env manifest) == "") = false := by
    rw [beq_eq_false_iff_ne]
    exact processedGamesContent_ne _
  simp [seqExit, hne]

/-- C1: the claim says an empty assembled catalog aborts the build with a
non-zero exit and that exit zero implies a non-empty catalog.  On an empty
manifest with no external directories the catalog is empty, the temp file
still holds the bracket lines `[` and `]` (so the `[ ! -s ]` "no games
were processed" gate cannot fire), and the build exits zero — the gate
tests file emptiness, not array emptiness. -/
theorem c1_empty_catalog_exit_zero :
    seqCatalog trivEnv [] = [] ∧ seqExit trivEnv [] = 0 ∧
    processedGamesContent (seqCatalog trivEnv []) = "[\n]\n" := by
  refine ⟨rfl, seqExit_zero _ _, by decide⟩

/-- C3 counterexample: `NES/README.md` (a reserved basename with a
denylisted extension) still yields a sequential-catalog entry `README`,
because the sequential driver applies neither filter; and
`NES/notes.txt` (a denylisted `.txt` extension) yields a parallel-catalog
entry `notes`, because the extension grep's doubled-backslash pattern
never fires on ordinary paths. -/
theorem c3_counterexample :
    fileReserved (romFilename "NES/README.md") = true ∧
    (∃ g ∈ seqCatalog trivEnv ["NES/README.md"], g.id = "README") ∧
    (∃ g ∈ parCatalog trivEnv ["NES/notes.txt"], g.id = "notes") := by decide

/-- C5 counterexample: the prediction data flags game id `mario`
(`SHOW_GAME|...`), but the sequential driver queries the prediction script
with the metadata title `Super Mario`, which is not flagged; the produced
entry keeps its metadata `hide: "yes"` instead of being forced visible. -/
theorem c5_counterexample :
    predIsShow (c5Env.predict "mario") = true ∧
    ∃ g ∈ seqCatalog c5Env ["NES/mario.nes"], g.id = "mario" ∧ g.hide = "yes" := by decide

/-- C6 counterexample: in the sequential driver the `announcement_message`
shell variable is never re-initialised between loop iterations, so the
entry for `beta`, whose metadata file is unparsable, inherits the previous
game's announcement `"bonjour"` instead of falling back to the default
empty string. -/
theorem c6_counterexample :
    ∃ g ∈ seqCatalog c6Env ["NES/alpha.nes", "NES/beta.nes"],
      g.id = "beta" ∧ g.announcement_message = "bonjour" := by decide

/-- C9 counterexample: an entry in an unmapped system folder is included
with `core` equal to the literal string `"null"` (the `${core:-null}`
substitution), not the empty core the claim states. -/
theorem c9_counterexample :
    ∃ g ∈ seqCatalog trivEnv ["FOO/game.bin"], g.core = "null" ∧ g.core ≠ "" := by decide

/-- C7: an external-prefixed game directory produces a catalog entry if
and only if its metadata parses, `game_type` equals `"external"`, `hide`
is not `"yes"`, and `title` and `external_url` are non-empty; any failing
condition excludes the entry entirely. -/
theorem c7_external_eligibility (env : Env) (d : String) :
    (∃ g, processExternal env d = some g) ↔
      (∃ doc, env.metaOf d = MetaFile.parsed doc ∧
        jqStr doc.game_type "" = "external" ∧ jqStr doc.hide "" ≠ "yes" ∧
        jqStr doc.title "" ≠ "" ∧ jqStr doc.external_url "" ≠ "") := by
  unfold processExternal
  cases h : env.metaOf d with
  | absent => simp [h]
  | invalid => simp [h]
  | parsed doc =>
    simp only [h, MetaFile.parsed.injEq, exists_eq_left']
    constructor
    · rintro ⟨g, hg⟩
      by_cases h1 : jqStr doc.game_type "" ≠ "external"
      · rw [if_pos h1] at hg
        exact absurd hg (by simp)
      · rw [if_neg h1] at hg
        by_cases h2 : (jqStr doc.hide "" == "yes" || jqStr doc.title "" == "" ||
            jqStr doc.external_url "" == "") = true
        · rw [if_pos h2] at hg
          exact absurd hg (by simp)
        · have h2f := Bool.eq_false_iff.mpr h2
          rcases Bool.or_eq_false_iff.mp h2f with ⟨h3, hc⟩
          rcases Bool.or_eq_false_iff.mp h3 with ⟨ha, hb⟩
          refine ⟨not_not.mp h1, ?_, ?_, ?_⟩
          · exact beq_eq_false_iff_ne.mp ha
          · exact beq_eq_false_iff_ne.mp hb
          · exact beq_eq_false_iff_ne.mp hc
    · rintro ⟨hgt, hh, ht, hu⟩
      rw [if_neg (by simp [hgt])]
      rw [if_neg (by simp [hh, ht, hu])]
      exact ⟨_, rfl⟩

/-- C9 (amended): every non-skipped manifest entry is included, its `core`
field follows the table of `get_core_from_dir`, and an unmapped system
folder yields the literal string `"null"` (the `${core:-null}`
substitution) rather than the empty core the claim states. -/
theorem c9_core_mapping (env : Env) (ann : String) (e : String)
    (hb : romSubdir e ≠ "bios") (he : e ≠ "") :
    (∃ g, (seqEntryResult env ann e).1 = some g ∧
       g.core = (if get_core_from_dir (romSubdir e) == "" then "null"
                 else get_core_from_dir (romSubdir e)) ∧
       (get_core_from_dir (romSubdir e) = "" → g.core = "null")) ∧
    (get_core_from_dir "arcade" = "arcade" ∧ get_core_from_dir "fbneo" = "arcade" ∧
     get_core_from_dir "mame" = "mame2003_plus" ∧ get_core_from_dir "mame2003" = "mame2003_plus" ∧
     get_core_from_dir "ATARI2600" = "atari2600" ∧ get_core_from_dir "GAMEBOY" = "gb" ∧
     get_core_from_dir "GBA" = "gba" ∧ get_core_from_dir "GENESIS" = "segaMD" ∧
     get_core_from_dir "MEGADRIVE" = "segaMD" ∧ get_core_from_dir "GG" = "segaGG" ∧
     get_core_from_dir "JAGUAR" = "jaguar" ∧ get_core_from_dir "N64" = "n64" ∧
     get_core_from_dir "NES" = "nes" ∧ get_core_from_dir "PCENGINE" = "pce" ∧
     get_core_from_dir "PSX" = "psx" ∧ get_core_from_dir "S32X" = "sega32x" ∧
     get_core_from_dir "SMS" = "segaMS" ∧ get_core_from_dir "SNES" = "snes" ∧
     get_core_from_dir "VB" = "vb" ∧ get_core_from_dir "WS" = "ws") := by
  constructor
  · refine ⟨(processRomCommon env true ann e).1, ?_,
      processRomCommon_core env true ann e, ?_⟩
    · unfold seqEntryResult
      rw [if_neg (by simp [he]), if_neg (by simp [hb])]
    · intro h0
      rw [processRomCommon_core, h0]
      rfl
  · decide

/-- Witness for C9: the unmapped folder `FOO` yields an included entry
with `core = "null"`. -/
theorem c9_witness :
    ∃ g, (seqEntryResult trivEnv "" "FOO/game.bin").1 = some g ∧ g.core = "null" := by
  obtain ⟨⟨g, hg, _, himp⟩, _⟩ :=
    c9_core_mapping trivEnv "" "FOO/game.bin" (by decide) (by decide)
  exact ⟨g, hg, himp (by decide)⟩

/-- A produced sequential-loop entry is the shared per-entry build result
(by-title prediction key). -/
theorem seqEntryResult_some {env : Env} {ann e : String} {g : CatalogEntry}
    (hg : (seqEntryResult env ann e).1 = some g) :
    (processRomCommon env true ann e).1 = g := by
  unfold seqEntryResult at hg
  by_cases h1 : (e == "") = true
  · rw [if_pos h1] at hg
    exact absurd hg (by simp)
  · rw [if_neg h1] at hg
    by_cases h2 : (romSubdir e == "bios") = true
    · rw [if_pos h2] at hg
      exact absurd hg (by simp)
    · rw [if_neg h2] at hg
      exact Option.some.inj hg

/-- A produced parallel-driver entry is the shared per-entry build result
(by-game-id prediction key, fresh announcement). -/
theorem parProcessRom_some {env : Env} {e : String} {g : CatalogEntry}
    (hg : parProcessRom env e = some g) :
    (processRomCommon env false "" e).1 = g := by
  unfold parProcessRom at hg
  by_cases h1 : (e == "") = true
  · rw [if_pos h1] at hg
    exact absurd hg (by simp)
  · rw [if_neg h1] at hg
    by_cases h2 : fileReserved (romFilename e) = true
    · rw [if_pos h2] at hg
      exact absurd hg (by simp)
    · rw [if_neg h2] at hg
      by_cases h3 : strDenyExt (romFilename e) = true
      · rw [if_pos h3] at hg
        exact absurd hg (by simp)
      · rw [if_neg h3] at hg
        by_cases h4 : (romSubdir e == "bios") = true
        · rw [if_pos h4] at hg
          exact absurd hg (by simp)
        · rw [if_neg h4] at hg
          exact Option.some.inj hg

/-- C10: the default `hide` of a ROM-backed entry depends only on the
presence of a metadata file (absent prediction overrides): no metadata
file gives `hide = "yes"` (hidden for the front-end), while a parsed
metadata file that omits `hide` gives `hide = ""`, which the front-end
filter of `main.js` treats as visible. -/
theorem c10_hide_default (env : Env) (ann : String) (e : String) (g : CatalogEntry)
    (hnp : ∀ s, predIsShow (env.predict s) = false) :
    (env.metaOf (gidOf e) = MetaFile.absent →
       (seqEntryResult env ann e).1 = some g →
       g.hide = "yes" ∧ jsVisible g.hide = false) ∧
    (∀ doc, env.metaOf (gidOf e) = MetaFile.parsed doc → doc.hide = none →
       (seqEntryResult env ann e).1 = some g →
       g.hide = "" ∧ jsVisible g.hide = true) := by
  constructor
  · intro hmeta hg
    have hg2 := seqEntryResult_some hg
    subst hg2
    unfold gidOf at hmeta
    simp only [processRomCommon, hmeta, applyPred_not_show (hnp _)]
    constructor
    · repeat' split
      all_goals rfl
    · simp only [jsVisible]
      repeat' split
      all_goals rfl
  · intro doc hmeta hhide hg
    have hg2 := seqEntryResult_some hg
    subst hg2
    unfold gidOf at hmeta
    simp only [processRomCommon, hmeta, hhide, applyPred_not_show (hnp _)]
    constructor
    · repeat' split
      all_goals rfl
    · simp only [jsVisible]
      repeat' split
      all_goals rfl

/-- Witness for C10: `zelda` has an empty (hence `hide`-omitting) parsed
metadata document and its entry is visible; `mario` has none and its
entry is hidden. -/
theorem c10_witness :
    (∃ g, (seqEntryResult c10Env "" "SNES/zelda.smc").1 = some g ∧
       g.hide = "" ∧ jsVisible g.hide = true) ∧
    (∃ g, (seqEntryResult trivEnv "" "NES/mario.nes").1 = some g ∧
       g.hide = "yes" ∧ jsVisible g.hide = false) := by
  constructor
  · refine ⟨(processRomCommon c10Env true "" "SNES/zelda.smc").1, by decide, ?_⟩
    have h := (c10_hide_default c10Env "" "SNES/zelda.smc"
      (processRomCommon c10Env true "" "SNES/zelda.smc").1 (fun _ => rfl)).2
      {} (by decide) rfl (by decide)
    exact h
  · refine ⟨(processRomCommon trivEnv true "" "NES/mario.nes").1, by decide, ?_⟩
    have h := (c10_hide_default trivEnv "" "NES/mario.nes"
      (processRomCommon trivEnv true "" "NES/mario.nes").1 (fun _ => rfl)).1
      rfl (by decide)
    exact h


/-- C5 (amended): the parallel driver keys its prediction lookups by game
id, so a game id flagged `SHOW_GAME*` always yields `hide = "no"` (even
against an explicit metadata `hide: "yes"`), and a carried override date
replaces `added`; the sequential driver, which keys the lookup by title,
does not give this guarantee (see the counterexample). -/
theorem c5_prediction_override (env : Env) (e : String) (g : CatalogEntry) (d : String)
    (hgid : gidOf e ≠ "")
    (hshow : predIsShow (env.predict (gidOf e)) = true)
    (hg : parProcessRom env e = some g) :
    g.hide = "no" ∧ (predDate (env.predict (gidOf e)) = some d → g.added = d) := by
  have hg2 := parProcessRom_some hg
  subst hg2
  unfold gidOf at hgid hshow ⊢
  simp only [processRomCommon, applyPred_show hshow, Bool.false_eq_true, if_false]
  cases hmf : env.metaOf (stripExt (romFilename e)) with
  | absent =>
    simp only [if_pos hgid]
    rw [if_neg (by simp)]
    exact ⟨rfl, fun hp => by rw [hp]⟩
  | invalid =>
    simp only [if_pos hgid]
    rw [if_neg (by simp)]
    exact ⟨rfl, fun hp => by rw [hp]⟩
  | parsed doc =>
    simp only [if_pos hgid]
    by_cases hc : (true && decide (jqStr doc.title "" ≠ "") &&
        decide (jqStr doc.title "" ≠ stripExt (romFilename e))) = true
    · rw [if_pos hc]
      exact ⟨rfl, fun hp => by rw [hp]⟩
    · rw [if_neg hc]
      exact ⟨rfl, fun hp => by rw [hp]⟩

/-- Witness for C5: in the parallel driver the flagged id `mario` is
forced visible and its `added` date is overridden, despite metadata
`hide: "yes"`. -/
theorem c5_witness :
    ∃ g, parProcessRom c5Env "NES/mario.nes" = some g ∧
      g.hide = "no" ∧ g.added = "2025-01-06" := by
  refine ⟨(processRomCommon c5Env false "" "NES/mario.nes").1, by decide, ?_⟩
  have h := c5_prediction_override c5Env "NES/mario.nes"
    (processRomCommon c5Env false "" "NES/mario.nes").1 "2025-01-06"
    (by decide) (by decide) (by decide)
  exact ⟨h.1, h.2 (by decide)⟩


/-- Swapping an unparsable metadata file for no file at all changes
nothing in the shared per-entry build: both take the defaults branch and
both run the same second-block prediction lookup. -/
theorem processRomCommon_invalid_absent (env : Env) (b : Bool) (a e : String)
    (h : env.metaOf (gidOf e) = MetaFile.invalid) :
    processRomCommon env b a e =
      processRomCommon (env.withMeta (gidOf e) MetaFile.absent) b a e := by
  unfold gidOf at h ⊢
  simp [processRomCommon, Env.withMeta, h]

/-- C6 (amended): an unparsable metadata document is processed exactly
like an absent one in both drivers, and (absent predictions) every
metadata-derived field falls back to its default — except
`announcement_message`, which the sequential driver never re-initialises,
so it keeps the incoming loop value `ann` rather than the default empty
string (see the counterexample); the run is never aborted. -/
theorem c6_invalid_like_absent (env : Env) (ann : String) (e : String)
    (hinv : env.metaOf (gidOf e) = MetaFile.invalid)
    (hnp : ∀ s, predIsShow (env.predict s) = false) :
    (seqEntryResult env ann e =
       seqEntryResult (env.withMeta (gidOf e) MetaFile.absent) ann e) ∧
    (parProcessRom env e =
       parProcessRom (env.withMeta (gidOf e) MetaFile.absent) e) ∧
    (∀ g, (seqEntryResult env ann e).1 = some g →
       g.title = gidOf e ∧ g.developer = "" ∧ g.year = "" ∧ g.genre = "" ∧
       g.recommended = "" ∧ g.added = "" ∧ g.hide = "yes" ∧ g.enable_score = true ∧
       g.to_start = "" ∧ g.problem = "" ∧ g.controls = "null" ∧ g.new_flag = "" ∧
       g.announcement_message = ann) ∧
    (∀ manifest, seqExit env manifest = 0) := by
  refine ⟨?_, ?_, ?_, fun m => seqExit_zero env m⟩
  · unfold seqEntryResult
    rw [processRomCommon_invalid_absent env true ann e hinv]
  · unfold parProcessRom
    rw [processRomCommon_invalid_absent env false "" e hinv]
  · intro g hg
    have hg2 := seqEntryResult_some hg
    subst hg2
    unfold gidOf at hinv
    simp only [processRomCommon, hinv, applyPred_not_show (hnp _)]
    refine ⟨?_, ?_, ?_, ?_, ?_, ?_, ?_, ?_, ?_, ?_, ?_, ?_, ?_⟩ <;>
      (repeat' split) <;> rfl

/-- Witness for C6: `beta` has an unparsable metadata file in `c6Env`;
its per-entry result is the same as with no file, all fields take their
defaults, and the incoming announcement value is carried through. -/
theorem c6_witness :
    ∃ g, (seqEntryResult c6Env "carry" "NES/beta.nes").1 = some g ∧
      g.hide = "yes" ∧ g.new_flag = "" ∧ g.announcement_message = "carry" ∧
      (seqEntryResult c6Env "carry" "NES/beta.nes" =
        seqEntryResult (c6Env.withMeta "beta" MetaFile.absent) "carry" "NES/beta.nes") := by
  have h := c6_invalid_like_absent c6Env "carry" "NES/beta.nes" (by decide) (fun _ => rfl)
  refine ⟨(processRomCommon c6Env true "carry" "NES/beta.nes").1, by decide, ?_⟩
  obtain ⟨_, _, _, _, _, _, hhide, _, _, _, _, hnf, hann⟩ :=
    h.2.2.1 (processRomCommon c6Env true "carry" "NES/beta.nes").1 (by decide)
  exact ⟨hhide, hnf, hann, h.1⟩


/-- The monolithic per-entry build is exactly the composition of its
decomposed phases. -/
theorem processRomCommon_eq (env : Env) (b : Bool) (a e : String) :
    processRomCommon env b a e =
      (mkRomEntry env e (romFields1 env b a e), (romFields1 env b a e).ann) := rfl

/-- The second prediction block either keeps the variables or only
rewrites `hide` and `added`. -/
theorem romFields1_or (env : Env) (b : Bool) (a e : String) :
    romFields1 env b a e = romFields0 env b a e ∨
    ∃ r : String × String, romFields1 env b a e =
      { romFields0 env b a e with hide := r.1, added := r.2 } := by
  simp only [romFields1]
  repeat' split
  all_goals first
    | exact Or.inl rfl
    | exact Or.inr ⟨(_, _), rfl⟩

/-- All fields other than `hide` and `added` survive the second
prediction block unchanged. -/
theorem romFields1_keeps (env : Env) (b : Bool) (a e : String) :
    (romFields1 env b a e).title = (romFields0 env b a e).title ∧
    (romFields1 env b a e).developer = (romFields0 env b a e).developer ∧
    (romFields1 env b a e).year = (romFields0 env b a e).year ∧
    (romFields1 env b a e).genre = (romFields0 env b a e).genre ∧
    (romFields1 env b a e).recommended = (romFields0 env b a e).recommended ∧
    (romFields1 env b a e).enable_score = (romFields0 env b a e).enable_score ∧
    (romFields1 env b a e).to_start = (romFields0 env b a e).to_start ∧
    (romFields1 env b a e).problem = (romFields0 env b a e).problem ∧
    (romFields1 env b a e).controls = (romFields0 env b a e).controls ∧
    (romFields1 env b a e).new_override = (romFields0 env b a e).new_override ∧
    (romFields1 env b a e).ann = (romFields0 env b a e).ann := by
  rcases romFields1_or env b a e with h | ⟨r, h⟩ <;> rw [h] <;>
    exact ⟨rfl, rfl, rfl, rfl, rfl, rfl, rfl, rfl, rfl, rfl, rfl⟩

/-- The explicit `new` override the first phase records is
`newOverrideOf`. -/
theorem romFields0_new_override (env : Env) (b : Bool) (a e : String) :
    (romFields0 env b a e).new_override = newOverrideOf env (gidOf e) := by
  simp only [romFields0, newOverrideOf, gidOf]
  cases h : env.metaOf (stripExt (romFilename e)) <;> simp [h]

/-- The `new_flag` of every built ROM entry is the final-new-flag law
applied to the explicit override and the entry's own (effective) `added`
date. -/
theorem processRomCommon_new_flag (env : Env) (b : Bool) (a e : String) :
    (processRomCommon env b a e).1.new_flag =
      finalNewFlag (newOverrideOf env (gidOf e))
        (isNewByDate env.parseDate env.nowEpoch ((processRomCommon env b a e).1.added)) := by
  rw [processRomCommon_eq]
  rw [show (mkRomEntry env e (romFields1 env b a e), (romFields1 env b a e).ann).1.new_flag =
      finalNewFlag ((romFields1 env b a e).new_override)
        (isNewByDate env.parseDate env.nowEpoch ((romFields1 env b a e).added)) from rfl]
  rw [(romFields1_keeps env b a e).2.2.2.2.2.2.2.2.2.1, romFields0_new_override]
  rfl


/-- The final `new_flag` is `"true"` exactly when the explicit override is
the literal `"true"` or the date is present, not the sentinel, parses, and
is strictly less than 7 whole days old (bash truncating division); the
unparsable-date case falls to "not new", which is the parallel ROM
loop's behaviour (see `isNewByDate` for the fatal top-level path). -/
theorem finalNewFlag_iff (n : String) (p : String → Option Int) (now : Int) (a : String) :
    finalNewFlag n (isNewByDate p now a) = "true" ↔
      (n = "true" ∨ (a ≠ "" ∧ a ≠ "DATE_PLACEHOLDER" ∧
        ∃ ep, p a = some ep ∧ Int.tdiv (now - ep) 86400 < 7)) := by
  by_cases hn : n = "true"
  · simp [finalNewFlag, hn]
  · cases hpa : p a with
    | none => simp [finalNewFlag, isNewByDate, hpa, hn]
    | some ep =>
      by_cases h1 : a = ""
      · simp [finalNewFlag, isNewByDate, hpa, h1, hn]
      · by_cases h2 : a = "DATE_PLACEHOLDER"
        · simp [finalNewFlag, isNewByDate, hpa, h1, h2, hn]
        · by_cases h7 : Int.tdiv (now - ep) 86400 < 7
          · simp [finalNewFlag, isNewByDate, hpa, h1, h2, hn, h7]
          · simp [finalNewFlag, isNewByDate, hpa, h1, h2, hn, h7]

/-- The `new_flag` of every produced external entry follows the same
final-new-flag law, over the entry's own `added` date (a model-level
statement: in a real run an eligible external entry with a present,
non-sentinel, unparsable date aborts the build, see `dateAssignAborts`). -/
theorem processExternal_new_flag (env : Env) (d : String) (g : CatalogEntry)
    (hg : processExternal env d = some g) :
    g.new_flag = finalNewFlag (newOverrideOf env d)
      (isNewByDate env.parseDate env.nowEpoch g.added) := by
  unfold newOverrideOf
  cases h : env.metaOf d with
  | absent =>
    simp only [processExternal, h] at hg
    exact absurd hg (by simp)
  | invalid =>
    simp only [processExternal, h] at hg
    exact absurd hg (by simp)
  | parsed doc =>
    simp only [processExternal, h] at hg
    by_cases h1 : jqStr doc.game_type "" ≠ "external"
    · rw [if_pos h1] at hg
      exact absurd hg (by simp)
    · rw [if_neg h1] at hg
      by_cases h2 : (jqStr doc.hide "" == "yes" || jqStr doc.title "" == "" ||
          jqStr doc.external_url "" == "") = true
      · rw [if_pos h2] at hg
        exact absurd hg (by simp)
      · rw [if_neg h2] at hg
        have hge := Option.some.inj hg
        subst hge
        rfl

/-- C4: the claim says an unparsable `added` date yields "not new" rather
than an error.  That is what the code's own fallback chain and dead
`[ -n "$added_epoch" ]` guard intend, and it is what the parallel ROM
loop does (first conjunct: the full recency law over the entry's
effective `added` date) — but in the sequential ROM loop and in both
drivers' external scans the top-level `added_epoch=$(date ... || date ...)`
assignment fails under `set -e` and aborts the whole build (second and
third conjuncts characterise and instantiate that fatal condition,
modelled by `dateAssignAborts`). -/
theorem c4_date_handling :
    (∀ (env : Env) (e : String) (g : CatalogEntry),
       parProcessRom env e = some g →
       (g.new_flag = "true" ↔ (newOverrideOf env (gidOf e) = "true" ∨
          (g.added ≠ "" ∧ g.added ≠ "DATE_PLACEHOLDER" ∧
           ∃ ep, env.parseDate g.added = some ep ∧
             Int.tdiv (env.nowEpoch - ep) 86400 < 7)))) ∧
    (∀ (parse : String → Option Int) (added : String),
       dateAssignAborts parse added = true ↔
         (added ≠ "" ∧ added ≠ "DATE_PLACEHOLDER" ∧ parse added = none)) ∧
    dateAssignAborts trivEnv.parseDate "not-a-date" = true := by
  refine ⟨?_, ?_, by decide⟩
  · intro env e g hg
    have hg2 := parProcessRom_some hg
    subst hg2
    rw [processRomCommon_new_flag]
    exact finalNewFlag_iff _ _ _ _
  · intro parse added
    unfold dateAssignAborts
    cases hpa : parse added <;> simp [hpa]

/-- Witness for C4: in the parallel ROM loop a game added three days ago
is flagged new. -/
theorem c4_witness :
    ∃ g, parProcessRom c4Env "NES/fresh.nes" = some g ∧
      g.added = "2025-01-01" ∧ g.new_flag = "true" := by
  refine ⟨(processRomCommon c4Env false "" "NES/fresh.nes").1, by decide, by decide, ?_⟩
  have h := c4_date_handling.1 c4Env "NES/fresh.nes"
    (processRomCommon c4Env false "" "NES/fresh.nes").1 (by decide)
  exact h.mpr (Or.inr ⟨by decide, by decide, 1735689600, by decide, by decide⟩)


/-- C3 (amended): entries with a `bios` first segment or a `/bios/`
component contribute nothing in either driver, and entries with a
reserved basename (`README`, `upload-files`) contribute nothing in the
parallel driver.  The denylisted-extension greps are inert on ordinary
paths (their single-quoted pattern demands a literal backslash before the
extension), so a denylisted-extension entry such as `NES/notes.txt` is
kept by both drivers; the sequential driver applies neither the
reserved-basename nor the extension filter (see the counterexample). -/
theorem c3_filtering (env : Env) (ann : String) (e : String) :
    ((romSubdir e = "bios" ∨ strContains e "/bios/" = true) →
       seqLineContribution env ann e = none ∧ parLineContribution env e = none) ∧
    (fileReserved (romFilename e) = true → parLineContribution env e = none) ∧
    ((parLineContribution env "NES/notes.txt").isSome = true ∧
     (seqLineContribution env ann "NES/notes.txt").isSome = true) := by
  refine ⟨?_, ?_, ?_, ?_⟩
  · rintro (h | h)
    · constructor
      · simp [seqLineContribution, seqEntryResult, h]
      · simp [parLineContribution, parProcessRom, h]
    · constructor
      · simp [seqLineContribution, seqKeep, h]
      · simp [parLineContribution, parKeep, h]
  · intro h
    simp [parLineContribution, parProcessRom, h]
  · unfold parLineContribution
    rw [if_pos (by decide)]
    unfold parProcessRom
    rw [if_neg (by decide), if_neg (by decide), if_neg (by decide), if_neg (by decide)]
    rfl
  · unfold seqLineContribution
    rw [if_pos (by decide)]
    unfold seqEntryResult
    rw [if_neg (by decide), if_neg (by decide)]
    rfl

/-- Witness for C3: a bios path contributes nothing in both drivers and a
reserved basename contributes nothing in the parallel driver. -/
theorem c3_witness :
    seqLineContribution trivEnv "" "NES/bios/x.nes" = none ∧
    parLineContribution trivEnv "NES/bios/x.nes" = none ∧
    parLineContribution trivEnv "NES/README.md" = none := by
  have h1 := (c3_filtering trivEnv "" "NES/bios/x.nes").1 (Or.inr (by decide))
  have h2 := (c3_filtering trivEnv "" "NES/README.md").2.1 (by decide)
  exact ⟨h1.1, h1.2, h2⟩


